import Mathlib

/-!
Shallow embedding of the simulation core of `gss.py` (a fixed-timestep 2D
arcade shooter with an RL-training variant), together with proofs checking
the natural-language specification against it.

Conventions of the embedding:
* Python ints are `ℤ`, Python bools are `Bool`.
* Python 3 true division (`/`) produces floats; wherever the program keeps
  such values (the multiplier, the event counters, star positions) the model
  uses exact rationals `ℚ`.  All the divisions the verified claims depend on
  are by powers of two, where binary floating point is exact, so `ℚ` agrees
  with the float semantics there.
* `int(...)` truncation toward zero is `pyIntQ` on rationals and `truncR` on
  reals.
* Constants written `Fixed(0.035)` in the source denote `int(0.035 * 16384)`
  computed in floats; the embedding uses the resulting integer literals
  (e.g. 573) directly.
* Generator-based cooperative tasks are modelled as explicit step functions
  on state records; calls with side effects on `Status` are modelled as
  pure state transformers.  Sound playback and sprite/drawing code carry no
  simulation state and are omitted.
* Pseudo-random draws (`enemy_rand`, `effect_rand`, `agent_rand`) are passed
  to the model functions as explicit arguments where the modelled code
  consumes them.
-/

namespace GssModel

/-- Screen width in pixels (`SCREEN_WIDTH = 640`). -/
def SCREEN_WIDTH : ℤ := 640

/-- Screen height in pixels (`SCREEN_HEIGHT = 480`). -/
def SCREEN_HEIGHT : ℤ := 480

/-- Fixed point scale (`FIXED_MUL = 16384`). -/
def FIXED_MUL : ℤ := 16384

/-- `FIXED_WIDTH = SCREEN_WIDTH * FIXED_MUL`. -/
def FIXED_WIDTH : ℤ := SCREEN_WIDTH * FIXED_MUL

/-- `FIXED_HEIGHT = SCREEN_HEIGHT * FIXED_MUL`. -/
def FIXED_HEIGHT : ℤ := SCREEN_HEIGHT * FIXED_MUL

/-- `Fixed(val)` for integral `val`: scale into fixed point. -/
def Fixed (val : ℤ) : ℤ := val * FIXED_MUL

/-- Python `int(q)` for a rational-valued quantity: truncation toward zero. -/
def pyIntQ (q : ℚ) : ℤ := if q < 0 then -(Int.floor (-q)) else Int.floor q

/-- `ScreenInt(val) = int(val / FIXED_MUL)` on rational-valued coordinates.
Division by `FIXED_MUL = 2 ^ 14` is exact in floats, so `ℚ` is faithful. -/
def ScreenIntQ (val : ℚ) : ℤ := pyIntQ (val / (FIXED_MUL : ℚ))

/-- Axis-aligned collision box: offsets from the actor origin
(`Collision.__init__`).  Boxes are always built from `Fixed` integer
constants, so the offsets are integers. -/
structure Collision where
  min_x : ℤ
  min_y : ℤ
  max_x : ℤ
  max_y : ℤ
deriving DecidableEq, Repr

/-- `Collision.Check(self, x, y, other, other_x, other_y)`: the endpoint
containment test of the source, four sub-conditions per axis.  Positions are
rationals since some actors hold float positions. -/
def Collision.Check (self : Collision) (x y : ℚ) (other : Collision)
    (other_x other_y : ℚ) : Bool :=
  let self_min_x := x + (self.min_x : ℚ)
  let self_min_y := y + (self.min_y : ℚ)
  let self_max_x := x + (self.max_x : ℚ)
  let self_max_y := y + (self.max_y : ℚ)
  let other_min_x := other_x + (other.min_x : ℚ)
  let other_min_y := other_y + (other.min_y : ℚ)
  let other_max_x := other_x + (other.max_x : ℚ)
  let other_max_y := other_y + (other.max_y : ℚ)
  decide (((self_min_x ≤ other_min_x ∧ other_min_x ≤ self_max_x)
      ∨ (self_min_x ≤ other_max_x ∧ other_max_x ≤ self_max_x)
      ∨ (other_min_x ≤ self_min_x ∧ self_min_x ≤ other_max_x)
      ∨ (other_min_x ≤ self_max_x ∧ self_max_x ≤ other_max_x))
    ∧ ((self_min_y ≤ other_min_y ∧ other_min_y ≤ self_max_y)
      ∨ (self_min_y ≤ other_max_y ∧ other_max_y ≤ self_max_y)
      ∨ (other_min_y ≤ self_min_y ∧ self_min_y ≤ other_max_y)
      ∨ (other_min_y ≤ self_max_y ∧ self_max_y ≤ other_max_y)))

/-- The classic interval-overlap formula `a.min <= b.max and b.min <= a.max`
applied per axis to the same translated boxes.  This definition follows the
SPEC's words (not the source); it exists to be compared with
`Collision.Check`. -/
def specIntervalOverlap (self : Collision) (x y : ℚ) (other : Collision)
    (other_x other_y : ℚ) : Bool :=
  decide ((x + (self.min_x : ℚ) ≤ other_x + (other.max_x : ℚ)
      ∧ other_x + (other.min_x : ℚ) ≤ x + (self.max_x : ℚ))
    ∧ (y + (self.min_y : ℚ) ≤ other_y + (other.max_y : ℚ)
      ∧ other_y + (other.min_y : ℚ) ≤ y + (self.max_y : ℚ)))

/-- A well-formed box has `min_x <= max_x` and `min_y <= max_y`. -/
def Collision.WellFormed (c : Collision) : Prop :=
  c.min_x ≤ c.max_x ∧ c.min_y ≤ c.max_y

/-- `PointCollision.Check`: the point variant treats `(x, y)` as a point
strictly inside the other's open box. -/
def PointCollision.Check (x y : ℚ) (other : Collision)
    (other_x other_y : ℚ) : Bool :=
  decide ((other_x + (other.min_x : ℚ) < x ∧ x < other_x + (other.max_x : ℚ))
    ∧ (other_y + (other.min_y : ℚ) < y ∧ y < other_y + (other.max_y : ℚ)))

/-- `Collision.CheckSceneOut(self, x, y)`. -/
def Collision.CheckSceneOut (self : Collision) (x y : ℚ) : Bool :=
  decide ((x + (self.max_x : ℚ) < 0)
    ∨ (x + (self.min_x : ℚ) > (FIXED_WIDTH : ℚ))
    ∨ (y + (self.max_y : ℚ) < 0)
    ∨ (y + (self.min_y : ℚ) > (FIXED_HEIGHT : ℚ)))

/-- `Collision.RoundToSceneLimit(self, x, y)`: the four sequential clamps. -/
def Collision.RoundToSceneLimit (self : Collision) (x y : ℚ) : ℚ × ℚ :=
  let x := if x + (self.min_x : ℚ) < 0 then (0 : ℚ) - (self.min_x : ℚ) else x
  let x := if x + (self.max_x : ℚ) > (FIXED_WIDTH : ℚ)
    then (FIXED_WIDTH : ℚ) - (self.max_x : ℚ) else x
  let y := if y + (self.min_y : ℚ) < 0 then (0 : ℚ) - (self.min_y : ℚ) else y
  let y := if y + (self.max_y : ℚ) > (FIXED_HEIGHT : ℚ)
    then (FIXED_HEIGHT : ℚ) - (self.max_y : ℚ) else y
  (x, y)

/-- The mutable score/progress aggregate (`Status.__init__`).  Quantities
that Python holds as floats (`multiplier` after `UpdateMultiplier`,
`event_count`/`event_speed` after `AddEventSpeed`, the agent scores and the
penalty) are modelled as exact rationals.  `frame_num`/`begin_ticks` only
feed the FPS display and are omitted.  The field `set_completed_runs` is a
ghost instrumentation counter (not in the source) recording how many times
`SetCompleted` has executed, used to state the temporal claim about the
freeze-once lifecycle. -/
structure Status where
  score : ℤ := 0
  multiplier : ℚ := 1
  player_stock : ℤ := 3
  event_count : ℚ := Fixed 0
  event_speed : ℚ := Fixed 1
  frame_count : ℤ := 0
  lap_time : ℤ := 0
  completed : Bool := false
  agent_score : ℚ := 0
  agent_destruction_score : ℚ := 0
  agent_frame_score : ℚ := 0
  agent_event_score : ℚ := 0
  penalty : ℚ := 1
  set_completed_runs : ℕ := 0
deriving DecidableEq, Repr

/-- The three class-level fitness weights (`Status.destruction_scale` etc.),
drawn once per generation from `agent_rand` by `UpdateScales`; passed to the
model as parameters. -/
structure StatusScales where
  destruction_scale : ℚ
  frame_scale : ℚ
  event_scale : ℚ
deriving DecidableEq, Repr

/-- `Status.UpdateMultiplier(self, live_cnt)`:
`if live_cnt > 30: self.multiplier += (live_cnt - 30) / 32` (true division,
hence a rational increment). -/
def Status.UpdateMultiplier (self : Status) (live_cnt : ℤ) : Status :=
  if live_cnt > 30 then
    { self with multiplier := self.multiplier + ((live_cnt : ℚ) - 30) / 32 }
  else self

/-- `Status.ResetMultilier` (sic): `self.multiplier = 1`. -/
def Status.ResetMultilier (self : Status) : Status :=
  { self with multiplier := 1 }

/-- `Status.AddScore(self, base_score)`: `self.score += base_score`. -/
def Status.AddScore (self : Status) (base_score : ℤ) : Status :=
  { self with score := self.score + base_score }

/-- `Status.AddSuicideScore`: adds the current player stock to the score and
returns it. -/
def Status.AddSuicideScore (self : Status) : Status × ℤ :=
  ({ self with score := self.score + self.player_stock }, self.player_stock)

/-- `Status.SetCompleted(self)`: sets the completion flag and computes the
final agent score; `r` is the draw of `agent_rand.random()` consumed there.
The ghost counter records the execution. -/
def Status.SetCompleted (self : Status) (scales : StatusScales) (r : ℚ) :
    Status :=
  { self with
    completed := true
    agent_destruction_score := (self.score : ℚ)
    agent_frame_score := (self.frame_count : ℚ)
    agent_event_score := ((ScreenIntQ self.event_count : ℤ) : ℚ)
    agent_score := ((self.score : ℚ) * scales.destruction_scale
      + (self.frame_count : ℚ) * scales.frame_scale
      + ((ScreenIntQ self.event_count : ℤ) : ℚ) * scales.event_scale + r)
      * self.penalty
    set_completed_runs := self.set_completed_runs + 1 }

/-- `Status.DecrementPlayerStock(self, num)`: decrement, clamp at zero, and
call `SetCompleted` when the stock is (now) zero.  Besides the new status it
returns the value the method returns (the clamped stock). -/
def Status.DecrementPlayerStock (self : Status) (num : ℤ)
    (scales : StatusScales) (r : ℚ) : Status × ℤ :=
  let stock := self.player_stock - num
  let stock := if stock < 0 then 0 else stock
  let self := { self with player_stock := stock }
  let self := if stock = 0 then self.SetCompleted scales r else self
  (self, stock)

/-- `Status.IncrementEventCount(self)`: advances the event distance by the
event speed and returns the number of whole screen units crossed. -/
def Status.IncrementEventCount (self : Status) : Status × ℤ :=
  let previous_event_count := self.event_count
  let self := { self with
    event_count := self.event_count + self.event_speed
    frame_count := self.frame_count + 1 }
  (self, ScreenIntQ self.event_count - ScreenIntQ previous_event_count)

/-- `Status.AddEventSpeed(self, velocity)`: add and clamp into
`[Fixed(0.5), Fixed(4)]`. -/
def Status.AddEventSpeed (self : Status) (velocity : ℚ) : Status :=
  let speed := self.event_speed + velocity
  let speed := if speed < ((Fixed 1 : ℤ) : ℚ) / 2 then ((Fixed 1 : ℤ) : ℚ) / 2 else speed
  let speed := if speed > ((Fixed 4 : ℤ) : ℚ) then ((Fixed 4 : ℤ) : ℚ) else speed
  { self with event_speed := speed }

/-- `Status.IncrementLapTime(self)`: the lap time counts ticks until
completion, then freezes. -/
def Status.IncrementLapTime (self : Status) : Status :=
  if self.completed = false then { self with lap_time := self.lap_time + 1 }
  else self

/-- The minimal per-enemy state that the damage path reads and writes:
`shield` and the accumulated `live_cnt` (`Enemy.__init__`). -/
structure EnemyCore where
  shield : ℤ := 1
  live_cnt : ℤ := 0
deriving DecidableEq, Repr

/-- `Enemy.AddDamage(self, damage)` restricted to its effect on the enemy
core and the `Status` (the explosion-effect spawns and sounds carry no
score/ multiplier state and are omitted): always `AddScore(1)`; on the
shield reaching zero, `UpdateMultiplier(live_cnt)` then `AddScore(100)` and
self-removal.  The returned flag tells whether the enemy removed itself. -/
def Enemy.AddDamage (self : EnemyCore) (damage : ℤ) (st : Status) :
    EnemyCore × Status × Bool :=
  let self := { self with shield := self.shield - damage }
  let st := st.AddScore 1
  if self.shield ≤ 0 then
    let st := st.UpdateMultiplier self.live_cnt
    let st := st.AddScore 100
    (self, st, true)
  else
    (self, st, false)

/-- The per-kill base bonus differs by class: `Enemy`/`BossPartEnemy` add
100, `MiddleEnemy` adds 1000, `BossEnemy` adds 10000; the surrounding logic
is identical.  `Enemy.AddDamage` with its bonus generalized. -/
def Enemy.AddDamageWithBonus (self : EnemyCore) (damage : ℤ) (bonus : ℤ)
    (st : Status) : EnemyCore × Status × Bool :=
  let self := { self with shield := self.shield - damage }
  let st := st.AddScore 1
  if self.shield ≤ 0 then
    let st := st.UpdateMultiplier self.live_cnt
    let st := st.AddScore bonus
    (self, st, true)
  else
    (self, st, false)

/-- `Player.AddDamage(self, damage)` restricted to its effect on `Status`:
the multiplier is reset to 1 (the rest of the method spawns explosion
effects and switches the player to the `Destroy` phase). -/
def Player.AddDamageStatus (st : Status) : Status :=
  st.ResetMultilier

/-- `ActorList`: a fixed-capacity slot array.  The list of slots IS the
state (`self.actors`); its length is the capacity `num_actor`.  Actors are
identified by an id drawn from `α` (Python compares slots to actors by
object identity, which ids model faithfully as long as ids are unique). -/
abbrev ActorList (α : Type) : Type := List (Option α)

/-- `ActorList.Append(self, actor)`: place the actor in the first empty
slot; return `False` (and change nothing) when no slot is empty. -/
def ActorList.Append {α : Type} : ActorList α → α → ActorList α × Bool
  | [], _ => ([], false)
  | none :: rest, a => (some a :: rest, true)
  | some b :: rest, a =>
    let (rest', ok) := ActorList.Append rest a
    (some b :: rest', ok)

/-- `ActorList.Remove(self, actor)`: null the first slot holding the actor;
return `False` (and change nothing) when the actor is in no slot. -/
def ActorList.Remove {α : Type} [DecidableEq α] :
    ActorList α → α → ActorList α × Bool
  | [], _ => ([], false)
  | none :: rest, a =>
    let (rest', ok) := ActorList.Remove rest a
    (none :: rest', ok)
  | some b :: rest, a =>
    if b = a then (none :: rest, true)
    else
      let (rest', ok) := ActorList.Remove rest a
      (some b :: rest', ok)

/-- `ActorList.GetExistingNum(self)`: loop counting the non-empty slots. -/
def ActorList.GetExistingNum {α : Type} : ActorList α → ℕ
  | [] => 0
  | none :: rest => ActorList.GetExistingNum rest
  | some _ :: rest => ActorList.GetExistingNum rest + 1

/-- The number of non-`None` slots, written the way the spec says it
(`GetExistingNum` equals the count of non-empty slots); to be compared with
the loop above. -/
def specNonEmptySlotCount {α : Type} (l : ActorList α) : ℕ :=
  (l.filter Option.isSome).length

/-- An `Append` or `Remove` request, for speaking about arbitrary operation
sequences on an `ActorList`. -/
inductive AOp (α : Type) where
  | append (a : α)
  | remove (a : α)
deriving DecidableEq, Repr

/-- Apply one operation (discarding the returned status flag). -/
def AOp.apply {α : Type} [DecidableEq α] (l : ActorList α) : AOp α → ActorList α
  | AOp.append a => (ActorList.Append l a).1
  | AOp.remove a => (ActorList.Remove l a).1

/-- Apply a sequence of `Append`/`Remove` operations. -/
def AOp.applyAll {α : Type} [DecidableEq α] (init : ActorList α)
    (ops : List (AOp α)) : ActorList α :=
  ops.foldl AOp.apply init

/-- The player's collision box: `Collision(Fixed(-8), Fixed(-8), Fixed(8),
Fixed(8))`. -/
def playerCollision : Collision :=
  ⟨Fixed (-8), Fixed (-8), Fixed 8, Fixed 8⟩

/-- The beam's collision box: `Collision(Fixed(-16), ..., Fixed(16))`. -/
def beamCollision : Collision :=
  ⟨Fixed (-16), Fixed (-16), Fixed 16, Fixed 16⟩

/-- The default enemy collision box (`Enemy.__init__`). -/
def enemyCollision : Collision :=
  ⟨Fixed (-16), Fixed (-16), Fixed 16, Fixed 16⟩

/-- The star's collision box (`Star.__init__`). -/
def starCollision : Collision :=
  ⟨Fixed (-32), Fixed (-8), Fixed 32, Fixed 8⟩

/-- Outcome of one `Process` tick for the scene-bounds policy: the actor's
new position and whether it removed itself from its owning list. -/
structure ProcessOutcome where
  x : ℚ
  y : ℚ
  removed : Bool
deriving DecidableEq, Repr

/-- `Beam.Process`: advance by `Fixed(16)` per tick and self-remove when out
of the scene (the sprite-frame toggle carries no simulation state). -/
def Beam.Process (x y : ℚ) : ProcessOutcome :=
  let x := x + ((Fixed 16 : ℤ) : ℚ)
  ⟨x, y, beamCollision.CheckSceneOut x y⟩

/-- `Enemy.Process` (the base-class step executed after every enemy's
movement generator): increment `live_cnt` and self-remove when out of the
scene, judged by the enemy's own collision box `c`. -/
def Enemy.ProcessBase (c : Collision) (x y : ℚ) (live_cnt : ℤ) :
    ℤ × Bool :=
  (live_cnt + 1, c.CheckSceneOut x y)

/-- `Bullet.Process`: advance by the velocity and self-remove when out of
the scene. -/
def Bullet.Process (c : Collision) (x y vx vy : ℚ) : ProcessOutcome :=
  let x := x + vx
  let y := y + vy
  ⟨x, y, c.CheckSceneOut x y⟩

/-- `Explosion.Process`: advance, age, and self-remove when the animation
ends (`cnt >= 32`) or the position leaves the scene. -/
def Explosion.Process (c : Collision) (x y vx vy : ℚ) (cnt : ℤ) :
    ProcessOutcome × ℤ :=
  let x := x + vx
  let y := y + vy
  let cnt := cnt + 1
  (⟨x, y, decide (cnt ≥ 32) || c.CheckSceneOut x y⟩, cnt)

/-- `BossPartEnemy.Process`: a boss part self-removes only when its parent
reference is cleared (`parent == None` is tested before the bounds test)
and its position is out of the scene.  `attached` is `parent != None`. -/
def BossPartEnemy.Process (attached : Bool) (x y : ℚ) : ProcessOutcome :=
  ⟨x, y, !attached && enemyCollision.CheckSceneOut x y⟩

/-- `BossEnemy.Process`: resume the phase generator and the child watcher
and reposition the children.  It performs NO scene-bounds test and never
self-removes on leaving the scene (`Enemy.Process` is not called); removal
happens only at the end of the `Destroy` phase.  Here only the absence of
the bounds-driven removal is modelled; `move` is the position change the
current phase generator makes this tick. -/
def BossEnemy.ProcessBoundsPolicy (x y : ℚ) (move : ℚ × ℚ) :
    ProcessOutcome :=
  ⟨x + move.1, y + move.2, false⟩

/-- `Star.Process`: a star leaving the scene is NOT removed; it is respawned
at `Fixed(SCREEN_WIDTH + 32)` with a fresh random row and speed.  `r_y` and
`r_speed` are the draws `effect_rand.randrange(SCREEN_HEIGHT)` and
`effect_rand.randrange(255)` consumed in that branch; `event_speed` is the
scene's current scroll speed. -/
def Star.Process (x y : ℚ) (speed : ℤ) (event_speed : ℚ)
    (r_y r_speed : ℤ) : ProcessOutcome × ℤ :=
  let velocity_x := (speed : ℚ) * event_speed / (-16)
  let x := x + velocity_x
  if starCollision.CheckSceneOut x y then
    (⟨((Fixed (SCREEN_WIDTH + 32) : ℤ) : ℚ), ((Fixed r_y : ℤ) : ℚ), false⟩,
      r_speed + 16)
  else
    (⟨x, y, false⟩, speed)

/-- `BossEnemy.GRANDCHILD_INDEX_LIST = (None, None, 4, 5, None, None)`. -/
def GRANDCHILD_INDEX_LIST : List (Option ℕ) :=
  [none, none, some 4, some 5, none, none]

/-- `BossEnemy.PAIR_CHILD_INDEX_LIST = (None, None, 3, 2, 5, 4)`. -/
def PAIR_CHILD_INDEX_LIST : List (Option ℕ) :=
  [none, none, some 3, some 2, some 5, some 4]

/-- `BossEnemy.SplitChild(self, child)`: scan the child slots for the given
child (by identity; children carry unique ids here), null its slot, and
recursively force-detach the slot's grandchild per the fixed table.  The
returned list records, in order, the ids on which `SplitFromBoss` was
invoked by the cascade (the argument child itself is detached by the
caller, not here).  The recursion is fuelled; the grandchild table has
depth one (slots 4 and 5 have no grandchildren), so any fuel `>= 6`
realizes the Python recursion exactly. -/
def BossEnemy.splitChildAux : ℕ → List (Option ℕ) → ℕ →
    List (Option ℕ) × List ℕ
  | 0, cs, _ => (cs, [])
  | fuel + 1, cs, child =>
    (List.range cs.length).foldl
      (fun (acc : List (Option ℕ) × List ℕ) i =>
        let cs := acc.1
        let evs := acc.2
        if cs.getD i none = some child then
          let cs := cs.set i none
          match GRANDCHILD_INDEX_LIST.getD i none with
          | none => (cs, evs)
          | some grandchild_index =>
            match cs.getD grandchild_index none with
            | none => (cs, evs)
            | some grandchild =>
              let res := BossEnemy.splitChildAux fuel cs grandchild
              (res.1, evs ++ res.2 ++ [grandchild])
        else (cs, evs))
      (cs, [])

/-- `BossEnemy.SplitChild` with enough fuel for the fixed tables. -/
def BossEnemy.SplitChild (cs : List (Option ℕ)) (child : ℕ) :
    List (Option ℕ) × List ℕ :=
  BossEnemy.splitChildAux 6 cs child

/-- The pair scan of `BossEnemy.Damage`: for every empty slot whose
configured pair slot is still occupied, force-detach the pair (cascades
included).  Returns the final slots, the ordered list of ids on which
`SplitFromBoss` was invoked, and the `has_splited_child` flag. -/
def BossEnemy.damagePairScan (cs0 : List (Option ℕ)) :
    List (Option ℕ) × List ℕ × Bool :=
  (List.range cs0.length).foldl
    (fun (acc : List (Option ℕ) × List ℕ × Bool) i =>
      let cs := acc.1
      let evs := acc.2.1
      let flag := acc.2.2
      match cs.getD i none with
      | some _ => (cs, evs, flag)
      | none =>
        match PAIR_CHILD_INDEX_LIST.getD i none with
        | none => (cs, evs, flag)
        | some pair_child_index =>
          match cs.getD pair_child_index none with
          | none => (cs, evs, flag)
          | some pair_child =>
            let res := BossEnemy.SplitChild cs pair_child
            (res.1, evs ++ res.2 ++ [pair_child], true))
    (cs0, [], false)

/-- `BossPartEnemy.ToDestroy` on a still-attached part, restricted to the
detach bookkeeping: the parent is sent to its `Damage` phase, then
`parent.SplitChild(self)` runs the cascade, then the part itself detaches
(`SplitFromBoss`).  Returns the new slots and the ordered detach events. -/
def BossPartEnemy.ToDestroyDetach (cs : List (Option ℕ)) (child : ℕ) :
    List (Option ℕ) × List ℕ :=
  let res := BossEnemy.SplitChild cs child
  (res.1, res.2 ++ [child])

/-- A timeline directive as `EventParser.ParseEvents` distinguishes them:
an immediate action whose operation returns 0 (`AppendEnemy`,
`BeginEnding`), an idle directive (`Idle` returns its positive duration),
or a predicate directive (`WaitEnemyDestroyed` returns a callable that is
re-polled once per delivered tick; the predicate is modelled as a function
of the global tick index at which it is polled). -/
inductive GDirective (α : Type) where
  | action (a : α)
  | idle (n : ℕ)
  | wait (p : ℕ → Bool)

/-- The suspended state of `EventParser.ParseEvents`: `pending` yields left
in the current idle directive, the directives not yet executed, the log of
immediate actions executed so far, and the number of `Process` calls made
so far (used to poll `wait` predicates). -/
structure PState (α : Type) where
  pending : ℕ
  rest : List (GDirective α)
  log : List α
  tick : ℕ

/-- Resumption of `ParseEvents` when the current directive is exhausted:
execute directives in order until one suspends.  An action executes and the
loop continues; `idle n` with `n > 0` consumes the current resume as its
first yield, leaving `n - 1` pending; `idle 0` does not yield; a `wait`
whose predicate is already true is passed without yielding, otherwise the
parser suspends on it.  After the last directive the parser idles forever. -/
def EventParser.advance {α : Type} :
    List (GDirective α) → ℕ → List α → PState α
  | [], t, log => ⟨0, [], log, t⟩
  | GDirective.action a :: r, t, log => EventParser.advance r t (log ++ [a])
  | GDirective.idle n :: r, t, log =>
    if n = 0 then EventParser.advance r t log else ⟨n - 1, r, log, t⟩
  | GDirective.wait p :: r, t, log =>
    if p t then EventParser.advance r t log
    else ⟨0, GDirective.wait p :: r, log, t⟩

/-- `EventParser.Process`: one resume of the parser generator. -/
def EventParser.Process {α : Type} (s : PState α) : PState α :=
  if s.pending > 0 then
    { s with pending := s.pending - 1, tick := s.tick + 1 }
  else
    let s' := EventParser.advance s.rest s.tick s.log
    { s' with tick := s.tick + 1 }

/-- Deliver `n` event ticks: `for i in range(n): event_parser.Process()`. -/
def EventParser.deliver {α : Type} : ℕ → PState α → PState α
  | 0, s => s
  | n + 1, s => EventParser.deliver n (EventParser.Process s)

/-- The event-feeding line of `Shooting.MainLoop`:
`for i in range(Shooting.scene.status.IncrementEventCount()):
event_parser.Process()`. -/
def frameEventDelivery {α : Type} (st : Status) (ps : PState α) :
    Status × PState α :=
  let res := st.IncrementEventCount
  (res.1, EventParser.deliver res.2.toNat ps)

/-- Iterated frames of the event-feeding line: each frame advances the
status by `IncrementEventCount` and feeds the returned tick count to the
parser. -/
def framesEventDelivery {α : Type} : ℕ → Status → PState α →
    Status × PState α
  | 0, st, ps => (st, ps)
  | n + 1, st, ps =>
    let res := frameEventDelivery st ps
    framesEventDelivery n res.1 res.2

/-- The status as evolved by `i` frames of `IncrementEventCount`. -/
def statusAfterFrames : ℕ → Status → Status
  | 0, st => st
  | i + 1, st => statusAfterFrames i (st.IncrementEventCount).1

/-- `int(0.035 * 16384)` as evaluated on floats in `StraightEnemy.Move`. -/
def fixed0_035 : ℤ := 573

/-- The state of a `StraightEnemy` (all quantities are exact integers). -/
structure StraightEnemyState where
  x : ℤ
  y : ℤ
  velocity_x : ℤ
  velocity_y : ℤ
  cnt : ℕ
deriving DecidableEq, Repr

/-- `StraightEnemy.__init__(self, x, y)`. -/
def StraightEnemy.init (x y : ℤ) : StraightEnemyState :=
  ⟨x, y, Fixed (-7), if y < Fixed 240 then Fixed 1 else Fixed (-1), 0⟩

/-- One resume of `StraightEnemy.Move`: accelerate, move, count, and fire a
bullet toward the player when `cnt == 50 or cnt == 100`.  The flag reports
whether a bullet was fired this tick. -/
def StraightEnemy.MoveStep (s : StraightEnemyState) :
    StraightEnemyState × Bool :=
  let vx := s.velocity_x + fixed0_035
  let x := s.x + vx
  let y := s.y + s.velocity_y
  let cnt := s.cnt + 1
  (⟨x, y, vx, s.velocity_y, cnt⟩, decide (cnt = 50 ∨ cnt = 100))

/-- Run a `StraightEnemy` spawned at `(Fixed(640), Fixed(120))` for `n`
process ticks, collecting for every fired bullet the firing tick and the
enemy position at that tick. -/
def StraightEnemy.run : ℕ → StraightEnemyState × List (ℕ × ℤ × ℤ)
  | 0 => (StraightEnemy.init (Fixed 640) (Fixed 120), [])
  | n + 1 =>
    let prev := StraightEnemy.run n
    let step := StraightEnemy.MoveStep prev.1
    (step.1,
      if step.2 then prev.2 ++ [(step.1.cnt, step.1.x, step.1.y)] else prev.2)

/-- Python `int(r)` on a real-valued quantity: truncation toward zero. -/
noncomputable def truncR (r : ℝ) : ℤ :=
  if r < 0 then -(Int.floor (-r)) else Int.floor r

/-- `Fixed(val)` on a real-valued (float) argument: `int(val * FIXED_MUL)`. -/
noncomputable def FixedR (val : ℝ) : ℤ :=
  truncR (val * (FIXED_MUL : ℝ))

/-- `math.atan2(y, x)`: the principal argument of the complex number
`x + y i`, in `(-pi, pi]`. -/
noncomputable def atan2 (y x : ℝ) : ℝ :=
  Complex.arg ⟨x, y⟩

/-- `Actor.Search(self, other)`: the angle from `(x, y)` toward
`(other_x, other_y)`, shifted into `[0, 2 pi)` when negative. -/
noncomputable def Actor.Search (x y other_x other_y : ℚ) : ℝ :=
  let angle := atan2 ((other_y : ℝ) - (y : ℝ)) ((other_x : ℝ) - (x : ℝ))
  if angle < 0 then angle + 2 * Real.pi else angle

/-- The constructor arguments of a `Bullet`. -/
structure BulletInit where
  x : ℤ
  y : ℤ
  velocity_x : ℤ
  velocity_y : ℤ

/-- `Bullet.FromAngle(x, y, angle, speed)`: velocity components
`Fixed(cos(angle) * speed)` and `Fixed(sin(angle) * speed)`. -/
noncomputable def Bullet.FromAngle (x y : ℤ) (angle : ℝ) (speed : ℝ) :
    BulletInit :=
  ⟨x, y, FixedR (Real.cos angle * speed), FixedR (Real.sin angle * speed)⟩

/-- The bullets fired by the straight enemy in its first `n` ticks, given
the player's position `pp t` at each tick `t`: exactly the source call
`Bullet.FromAngle(self.x, self.y, self.Search(player), 5)` at each firing
event. -/
noncomputable def StraightEnemy.firedBullets (pp : ℕ → ℤ × ℤ) (n : ℕ) :
    List BulletInit :=
  ((StraightEnemy.run n).2).map (fun e =>
    Bullet.FromAngle e.2.1 e.2.2
      (Actor.Search (e.2.1 : ℚ) (e.2.2 : ℚ)
        (((pp e.1).1 : ℚ)) (((pp e.1).2 : ℚ))) 5)

/-- The sequence of `Status` mutations performed by a completed ending:
`EventParser.BeginEnding` runs `Status.SetCompleted`; 360 ticks later
`Ending.Move` calls `Player.Suicide`, which runs `AddSuicideScore`,
`DecrementPlayerStock(3)` and `Player.AddDamage(1)` (a multiplier reset);
the resulting `Player.Destroy` phase runs `DecrementPlayerStock(1)` after
30 more ticks.  `r1 r2 r3` are the `agent_rand.random()` draws consumed by
the successive `SetCompleted` executions. -/
def endingStatusTrace (st : Status) (scales : StatusScales)
    (r1 r2 r3 : ℚ) : Status :=
  let st := st.SetCompleted scales r1
  let st := (st.AddSuicideScore).1
  let st := (st.DecrementPlayerStock 3 scales r2).1
  let st := Player.AddDamageStatus st
  let st := (st.DecrementPlayerStock 1 scales r3).1
  st

/-! ## Helper lemmas (shared) -/

/-- For nonempty closed intervals, the endpoint-containment disjunction of
`Collision.Check` is equivalent to the classic interval-overlap formula. -/
theorem endpoint_containment_iff_overlap (a1 a2 b1 b2 : ℚ)
    (h1 : a1 ≤ a2) (h2 : b1 ≤ b2) :
    ((a1 ≤ b1 ∧ b1 ≤ a2) ∨ (a1 ≤ b2 ∧ b2 ≤ a2)
      ∨ (b1 ≤ a1 ∧ a1 ≤ b2) ∨ (b1 ≤ a2 ∧ a2 ≤ b2))
      ↔ (a1 ≤ b2 ∧ b1 ≤ a2) := by
  constructor
  · rintro (⟨u, v⟩ | ⟨u, v⟩ | ⟨u, v⟩ | ⟨u, v⟩) <;>
      exact ⟨by linarith, by linarith⟩
  · rintro ⟨u, v⟩
    rcases le_total a1 b1 with h | h
    · exact Or.inl ⟨h, v⟩
    · exact Or.inr (Or.inr (Or.inl ⟨h, u⟩))

/-- On well-formed boxes, `Collision.Check` agrees with the classic
interval-overlap formula everywhere (shared workhorse for the collision
claims). -/
theorem check_eq_overlap_aux (a b : Collision) (x y ox oy : ℚ)
    (ha : a.WellFormed) (hb : b.WellFormed) :
    a.Check x y b ox oy = specIntervalOverlap a x y b ox oy := by
  obtain ⟨ha1, ha2⟩ := ha
  obtain ⟨hb1, hb2⟩ := hb
  unfold Collision.Check specIntervalOverlap
  rw [decide_eq_decide]
  apply and_congr
  · exact endpoint_containment_iff_overlap _ _ _ _
      (by exact add_le_add_left (by exact_mod_cast ha1) x)
      (by exact add_le_add_left (by exact_mod_cast hb1) ox)
  · exact endpoint_containment_iff_overlap _ _ _ _
      (by exact add_le_add_left (by exact_mod_cast ha2) y)
      (by exact add_le_add_left (by exact_mod_cast hb2) oy)

/-! ## C10 -/

/-- C10: the box-box collision test is commutative: for every two plain
`Collision` boxes and all positions,
`a.Check(x, y, b, other_x, other_y) = b.Check(other_x, other_y, a, x, y)`;
the four endpoint-containment sub-conditions per axis are invariant under
swapping the two boxes. -/
theorem collision_check_comm (a b : Collision) (x y ox oy : ℚ) :
    a.Check x y b ox oy = b.Check ox oy a x y := by
  have perm : ∀ A B C D : Prop, (A ∨ B ∨ C ∨ D) → (C ∨ D ∨ A ∨ B) := by
    intro A B C D h
    rcases h with h | h | h | h
    · exact Or.inr (Or.inr (Or.inl h))
    · exact Or.inr (Or.inr (Or.inr h))
    · exact Or.inl h
    · exact Or.inr (Or.inl h)
  unfold Collision.Check
  rw [decide_eq_decide]
  constructor <;> rintro ⟨hx, hy⟩ <;>
    exact ⟨perm _ _ _ _ hx, perm _ _ _ _ hy⟩

/-! ## C2 -/

/-- C2, counterexample to the claim as stated: there is NO pair of
well-formed collision boxes and positions on which the box-box
`Collision.Check` endpoint-containment test differs from the standard
interval-overlap formula `a.min <= b.max and b.min <= a.max` applied per
axis; the two formulations agree at touching boundaries too. -/
theorem no_wellformed_boxes_disagree_cex :
    ¬ ∃ (a b : Collision) (x y ox oy : ℚ),
      a.WellFormed ∧ b.WellFormed ∧
      a.Check x y b ox oy ≠ specIntervalOverlap a x y b ox oy := by
  rintro ⟨a, b, x, y, ox, oy, ha, hb, hne⟩
  exact hne (check_eq_overlap_aux a b x y ox oy ha hb)

/-- C2, amended: for every pair of well-formed collision boxes and all
positions, the box-box `Collision.Check` endpoint-containment test returns
exactly the same result as the standard interval-overlap formula
`a.min <= b.max and b.min <= a.max` applied per axis to the same translated
boxes; the two formulations never differ (differences would need a
degenerate box with `min > max`). -/
theorem check_eq_intervalOverlap_on_wellformed (a b : Collision)
    (x y ox oy : ℚ) (ha : a.WellFormed) (hb : b.WellFormed) :
    a.Check x y b ox oy = specIntervalOverlap a x y b ox oy :=
  check_eq_overlap_aux a b x y ox oy ha hb

/-- Witness for C2's amended theorem at concrete boxes and positions
(the beam box against the default enemy box, boxes touching exactly at one
boundary). -/
theorem check_eq_intervalOverlap_on_wellformed_witness :
    Collision.WellFormed ⟨-16, -16, 16, 16⟩
    ∧ Collision.WellFormed ⟨-8, -8, 8, 8⟩
    ∧ Collision.Check ⟨-16, -16, 16, 16⟩ 0 0 ⟨-8, -8, 8, 8⟩ 24 0
      = specIntervalOverlap ⟨-16, -16, 16, 16⟩ 0 0 ⟨-8, -8, 8, 8⟩ 24 0 :=
  ⟨⟨by decide, by decide⟩, ⟨by decide, by decide⟩,
    check_eq_intervalOverlap_on_wellformed ⟨-16, -16, 16, 16⟩ ⟨-8, -8, 8, 8⟩
      0 0 24 0 ⟨by decide, by decide⟩ ⟨by decide, by decide⟩⟩

/-! ## C1 -/

/-- C1, counterexample to the claim as stated: the per-kill score bonus is
NOT subject to the multiplier.  Killing an identical enemy (shield 1,
`live_cnt` 0) with the multiplier at 3 adds exactly the same amount to
`Status.score` as with the multiplier at 1 — 101 points (1 per damage tick
plus the flat 100 kill bonus) — so the amount added does not scale with
`Status.multiplier`. -/
theorem multiplier_not_applied_cex :
    (Enemy.AddDamage ⟨1, 0⟩ 1 { multiplier := 3 }).2.1.score
      = (Enemy.AddDamage ⟨1, 0⟩ 1 { multiplier := 1 }).2.1.score
    ∧ (Enemy.AddDamage ⟨1, 0⟩ 1 { multiplier := 3 }).2.1.score = 101
    ∧ ({ multiplier := 3 } : Status).score = 0 := by
  refine ⟨rfl, rfl, rfl⟩

/-- C1, amended: every per-kill score bonus is flat and ignores the
multiplier: when an enemy's shield reaches zero via `AddDamage`, exactly
`1 + 100` is added to `Status.score` regardless of the current
`Status.multiplier` (`AddScore` adds its base score unscaled); the
multiplier itself is still updated on the kill — growing by
`(live_cnt - 30) / 32` once the enemy's accumulated `live_cnt` exceeds 30
(`UpdateMultiplier`) — and is reset to 1 when the player dies
(`Player.AddDamage`), but it is never applied to any score addition. -/
theorem kill_bonus_flat_and_multiplier_lifecycle (st : Status)
    (e : EnemyCore) (d l : ℤ) :
    ((Enemy.AddDamage e d st).2.1.score
      = st.score + 1 + (if e.shield - d ≤ 0 then 100 else 0))
    ∧ ((Enemy.AddDamage e d st).2.1.multiplier
      = if e.shield - d ≤ 0 then (st.UpdateMultiplier e.live_cnt).multiplier
        else st.multiplier)
    ∧ ((st.UpdateMultiplier l).multiplier
      = if 30 < l then st.multiplier + ((l : ℚ) - 30) / 32
        else st.multiplier)
    ∧ (Player.AddDamageStatus st).multiplier = 1 := by
  refine ⟨?_, ?_, ?_, rfl⟩
  · by_cases h : e.shield - d ≤ 0 <;> by_cases h2 : 30 < e.live_cnt <;>
      simp [Enemy.AddDamage, Status.AddScore, Status.UpdateMultiplier, h, h2]
  · by_cases h : e.shield - d ≤ 0 <;> by_cases h2 : 30 < e.live_cnt <;>
      simp [Enemy.AddDamage, Status.AddScore, Status.UpdateMultiplier, h, h2]
  · by_cases h : 30 < l <;> simp [Status.UpdateMultiplier, h]

/-! ## C3 -/

/-- A box that fits inside the scene is never scene-out after
`RoundToSceneLimit` (shared helper for the bounds-policy claim). -/
theorem roundToSceneLimit_not_out (c : Collision) (x y : ℚ)
    (hmx : (c.min_x : ℚ) ≤ (c.max_x : ℚ)) (hmy : (c.min_y : ℚ) ≤ (c.max_y : ℚ))
    (hx : (c.max_x : ℚ) - (c.min_x : ℚ) ≤ (FIXED_WIDTH : ℚ))
    (hy : (c.max_y : ℚ) - (c.min_y : ℚ) ≤ (FIXED_HEIGHT : ℚ)) :
    c.CheckSceneOut (c.RoundToSceneLimit x y).1 (c.RoundToSceneLimit x y).2
      = false := by
  unfold Collision.RoundToSceneLimit Collision.CheckSceneOut
  simp only [decide_eq_false_iff_not]
  push_neg
  split_ifs <;>
    refine ⟨by linarith, by linarith, by linarith, by linarith⟩

/-- C3, counterexample to the claim as stated: a `Star` is a scene actor
processed by the frame loop whose position is out of the scene bounds (per
its collision box), yet its next `Process` tick does not remove it from its
list; instead it is respawned at `Fixed(SCREEN_WIDTH + 32)` with a fresh
random row and speed.  So the two exceptions listed by the claim (attached
boss parts and the player) are not the only ones. -/
theorem star_scene_out_not_removed_cex :
    starCollision.CheckSceneOut ((Fixed (-100) : ℤ) : ℚ) ((Fixed 100 : ℤ) : ℚ)
      = true
    ∧ ((Star.Process ((Fixed (-100) : ℤ) : ℚ) ((Fixed 100 : ℤ) : ℚ) 20
        ((Fixed 1 : ℤ) : ℚ) 7 9).1).removed = false
    ∧ ((Star.Process ((Fixed (-100) : ℤ) : ℚ) ((Fixed 100 : ℤ) : ℚ) 20
        ((Fixed 1 : ℤ) : ℚ) 7 9).1).x = ((Fixed 672 : ℤ) : ℚ) := by
  refine ⟨?_, ?_, ?_⟩ <;>
    norm_num [Star.Process, starCollision, Collision.CheckSceneOut, Fixed,
      FIXED_MUL, FIXED_WIDTH, FIXED_HEIGHT, SCREEN_WIDTH, SCREEN_HEIGHT]

/-- C3, amended: the self-removal-on-scene-out policy holds for beams, for
every enemy running the base `Enemy.Process` step, for bullets and for
explosions (which also expire by age); the exceptions are (1) boss part
actors whose parent reference is still non-`None` — checked before the
bounds test — which are never removed by bounds, (2) the player, whose
position is clamped back into the scene by `RoundToSceneLimit` and never
goes scene-out, (3) stars, which on leaving the scene are respawned at the
right edge instead of removed, and (4) the `BossEnemy` itself, whose
`Process` performs no bounds test at all and never self-removes by
bounds. -/
theorem scene_out_removal_policy :
    (∀ (c : Collision) (x y : ℚ) (live_cnt : ℤ),
      (Enemy.ProcessBase c x y live_cnt).2 = c.CheckSceneOut x y)
    ∧ (∀ x y : ℚ, (Beam.Process x y).removed
        = beamCollision.CheckSceneOut (x + ((Fixed 16 : ℤ) : ℚ)) y)
    ∧ (∀ (c : Collision) (x y vx vy : ℚ),
        (Bullet.Process c x y vx vy).removed
          = c.CheckSceneOut (x + vx) (y + vy))
    ∧ (∀ (c : Collision) (x y vx vy : ℚ) (cnt : ℤ),
        ((Explosion.Process c x y vx vy cnt).1).removed
          = (decide (cnt + 1 ≥ 32) || c.CheckSceneOut (x + vx) (y + vy)))
    ∧ (∀ x y : ℚ, (BossPartEnemy.Process true x y).removed = false)
    ∧ (∀ x y : ℚ, (BossPartEnemy.Process false x y).removed
        = enemyCollision.CheckSceneOut x y)
    ∧ (∀ x y : ℚ, playerCollision.CheckSceneOut
        (playerCollision.RoundToSceneLimit x y).1
        (playerCollision.RoundToSceneLimit x y).2 = false)
    ∧ (∀ (x y : ℚ) (move : ℚ × ℚ),
        (BossEnemy.ProcessBoundsPolicy x y move).removed = false)
    ∧ (∀ (x y : ℚ) (speed : ℤ) (event_speed : ℚ) (r_y r_speed : ℤ),
        ((Star.Process x y speed event_speed r_y r_speed).1).removed
          = false) := by
  refine ⟨fun c x y l => rfl, fun x y => rfl, fun c x y vx vy => rfl,
    fun c x y vx vy cnt => rfl, fun x y => rfl, fun x y => rfl,
    fun x y => ?_, fun x y move => rfl, fun x y s es ry rs => ?_⟩
  · refine roundToSceneLimit_not_out playerCollision x y ?_ ?_ ?_ ?_ <;>
      norm_num [playerCollision, Fixed, FIXED_MUL, FIXED_WIDTH, FIXED_HEIGHT,
        SCREEN_WIDTH, SCREEN_HEIGHT]
  · unfold Star.Process
    by_cases h : starCollision.CheckSceneOut (x + (s : ℚ) * es / (-16)) y <;>
      simp [h]

/-! ## C4 -/

/-- C4, counterexample to the claim as stated: in the canonical completed
run, `Status.SetCompleted` executes three times, not at most once.
`EventParser.BeginEnding` runs it once; 360 ticks later `Ending.Move`
invokes `Player.Suicide`, whose `DecrementPlayerStock(3)` clamps the stock
to zero and hence runs it again; and the player's scripted `Destroy` phase
then runs `DecrementPlayerStock(1)`, which finds the stock still zero and
runs it a third time.  Here from the initial status (stock 3, fresh
counters). -/
theorem setCompleted_thrice_ending_cex :
    (endingStatusTrace {} ⟨0, 0, 0⟩ 0 0 0).set_completed_runs = 3 := by
  rfl

/-- C4, amended: `Status.SetCompleted` is triggered exactly by
`EventParser.BeginEnding` and by `DecrementPlayerStock` leaving the stock
at zero, but it is NOT guarded by the completion flag and does not run at
most once per playthrough: in every run that reaches the ending directive
(with the player stock between 0 and 3, as it always is), the scripted
ending sequence executes `SetCompleted` exactly three more times —
once in `BeginEnding`, once when the ending's scripted `Player.Suicide`
decrements the stock to zero, and once more in the subsequent
`Player.Destroy` stock decrement; the `completed` flag itself simply
remains `true`. -/
theorem setCompleted_runs_ending_trace (st : Status) (scales : StatusScales)
    (r1 r2 r3 : ℚ) (h0 : 0 ≤ st.player_stock) (h3 : st.player_stock ≤ 3) :
    (endingStatusTrace st scales r1 r2 r3).set_completed_runs
      = st.set_completed_runs + 3
    ∧ (endingStatusTrace st scales r1 r2 r3).completed = true := by
  unfold endingStatusTrace Player.AddDamageStatus Status.ResetMultilier
  simp only [Status.DecrementPlayerStock, Status.AddSuicideScore,
    Status.SetCompleted]
  split_ifs <;> simp_all <;> omega

/-- Witness for C4's amended theorem at a concrete status (stock 2). -/
theorem setCompleted_runs_ending_trace_witness :
    (endingStatusTrace { player_stock := 2 } ⟨0, 0, 0⟩ 0 0 0).set_completed_runs
      = ({ player_stock := 2 } : Status).set_completed_runs + 3
    ∧ (endingStatusTrace { player_stock := 2 } ⟨0, 0, 0⟩ 0 0 0).completed
      = true :=
  setCompleted_runs_ending_trace { player_stock := 2 } ⟨0, 0, 0⟩ 0 0 0
    (by decide) (by decide)

/-! ## C5 -/

/-- `Append` on a list with no empty slot fails and changes nothing
(shared helper). -/
theorem append_full_aux {α : Type} (l : ActorList α) (a : α)
    (h : ∀ s ∈ l, s ≠ none) : ActorList.Append l a = (l, false) := by
  induction l with
  | nil => rfl
  | cons hd tl ih =>
    cases hd with
    | none => exact absurd rfl (h none (by simp))
    | some b =>
      have := ih (fun s hs => h s (by simp [hs]))
      simp [ActorList.Append, this]

/-- `Remove` of an absent actor fails and changes nothing (shared
helper). -/
theorem remove_absent_aux {α : Type} [DecidableEq α] (l : ActorList α)
    (b : α) (h : some b ∉ l) : ActorList.Remove l b = (l, false) := by
  induction l with
  | nil => rfl
  | cons hd tl ih =>
    rw [List.mem_cons] at h
    push_neg at h
    obtain ⟨hhd, htl⟩ := h
    cases hd with
    | none => simp [ActorList.Remove, ih htl]
    | some c =>
      have hcb : ¬(c = b) := fun hcb => hhd (by rw [hcb])
      simp [ActorList.Remove, hcb, ih htl]

/-- The counting loop `GetExistingNum` returns the number of non-`None`
slots (shared helper). -/
theorem getExistingNum_eq_count_aux {α : Type} (l : ActorList α) :
    ActorList.GetExistingNum l = specNonEmptySlotCount l := by
  induction l with
  | nil => rfl
  | cons hd tl ih =>
    cases hd <;>
      simp [ActorList.GetExistingNum, specNonEmptySlotCount,
        List.filter_cons, Option.isSome] <;>
      simpa [specNonEmptySlotCount] using ih

/-- C5: for every `ActorList`, `Append` on a list with no empty (`None`)
slot returns `False` and leaves every slot unchanged; `Remove` of an actor
not present in any slot returns `False` and leaves every slot unchanged;
and after any sequence of `Append` and `Remove` operations,
`GetExistingNum` returns exactly the number of non-`None` slots. -/
theorem actorList_append_remove_count_spec (l init : ActorList ℕ)
    (a b : ℕ) (ops : List (AOp ℕ))
    (hfull : ∀ s ∈ l, s ≠ none) (habs : some b ∉ l) :
    ActorList.Append l a = (l, false)
    ∧ ActorList.Remove l b = (l, false)
    ∧ ActorList.GetExistingNum (AOp.applyAll init ops)
      = specNonEmptySlotCount (AOp.applyAll init ops) :=
  ⟨append_full_aux l a hfull, remove_absent_aux l b habs,
    getExistingNum_eq_count_aux _⟩

/-- Witness for C5 at a concrete full list, absent actor and operation
sequence. -/
theorem actorList_append_remove_count_spec_witness :
    ActorList.Append [some 5, some 6] 1 = ([some 5, some 6], false)
    ∧ ActorList.Remove [some 5, some 6] 7 = ([some 5, some 6], false)
    ∧ ActorList.GetExistingNum
        (AOp.applyAll [none, none] [AOp.append 3, AOp.append 4, AOp.remove 3])
      = specNonEmptySlotCount
        (AOp.applyAll [none, none] [AOp.append 3, AOp.append 4, AOp.remove 3]) :=
  actorList_append_remove_count_spec [some 5, some 6] [none, none] 1 7
    [AOp.append 3, AOp.append 4, AOp.remove 3] (by decide) (by decide)

/-! ## C6 -/

/-- C6: the boss detach cascade on the fixed index tables.  With the full
child configuration (ids 0..5 in slots 0..5): destroying the child in slot
2 (`ToDestroyDetach`) nulls slot 2 and — via `GRANDCHILD_INDEX_LIST[2] = 4`
— also force-detaches the child in slot 4, invoking `SplitFromBoss` on the
grandchild first and on the destroyed child itself after (`[4, 2]`), each
exactly once; when both the slot-2 and the slot-3 child are already gone,
the Damage-phase pair scan (`PAIR_CHILD_INDEX_LIST[2] = 3`,
`[3] = 2`) finds both pair partners already `None` and detaches nothing —
it never detaches an already-detached slot a second time; and when only
slot 2 is empty, the scan detaches its pair partner (slot 3) exactly once,
with each cascaded detach event occurring exactly once (`Nodup`). -/
theorem boss_detach_cascade :
    BossEnemy.SplitChild [some 0, some 1, some 2, some 3, some 4, some 5] 2
      = ([some 0, some 1, none, some 3, none, some 5], [4])
    ∧ BossPartEnemy.ToDestroyDetach
        [some 0, some 1, some 2, some 3, some 4, some 5] 2
      = ([some 0, some 1, none, some 3, none, some 5], [4, 2])
    ∧ BossEnemy.damagePairScan [some 0, some 1, none, none, some 4, some 5]
      = ([some 0, some 1, none, none, some 4, some 5], [], false)
    ∧ BossEnemy.damagePairScan [some 0, some 1, none, some 3, some 4, some 5]
      = ([some 0, some 1, none, none, none, none], [5, 3, 4], true)
    ∧ ([5, 3, 4] : List ℕ).Nodup
    ∧ ([4, 2] : List ℕ).Nodup := by
  refine ⟨by decide, by decide, by decide, by decide, by decide, by decide⟩

/-! ## C7 -/

/-- Delivering ticks to a parser suspended inside an idle directive only
counts the pending yields down, one per tick (shared helper). -/
theorem deliver_pending_aux {α : Type} (m : ℕ) (s : PState α)
    (h : m ≤ s.pending) :
    EventParser.deliver m s = ⟨s.pending - m, s.rest, s.log, s.tick + m⟩ := by
  induction m generalizing s with
  | zero => cases s; rfl
  | succ n ih =>
    have hp : s.pending > 0 := lt_of_lt_of_le (Nat.succ_pos n) h
    unfold EventParser.deliver EventParser.Process
    rw [if_pos hp]
    rw [ih _ (by simp; omega)]
    simp only [PState.mk.injEq]
    refine ⟨by omega, trivial, trivial, by omega⟩

/-- Frames whose event-tick count is zero leave the parser untouched
(shared helper). -/
theorem frames_zero_no_advance_aux {α : Type} :
    ∀ (n : ℕ) (st : Status) (ps : PState α),
    (∀ i < n, ((statusAfterFrames i st).IncrementEventCount).2 = 0) →
    (framesEventDelivery n st ps).2 = ps := by
  intro n
  induction n with
  | zero => intro st ps _; rfl
  | succ m ih =>
    intro st ps hz
    have h0 : (st.IncrementEventCount).2 = 0 := hz 0 (Nat.succ_pos m)
    have hstep : frameEventDelivery st ps = ((st.IncrementEventCount).1, ps) := by
      show ((st.IncrementEventCount).1,
        EventParser.deliver (st.IncrementEventCount).2.toNat ps)
          = ((st.IncrementEventCount).1, ps)
      rw [h0]
      rfl
    show (framesEventDelivery (m + 1) st ps).2 = ps
    unfold framesEventDelivery
    simp only [hstep]
    exact ih _ _ (fun i hi => hz (i + 1) (Nat.succ_lt_succ hi))

/-- C7: the event timeline never advances on starved frames and paces idle
directives exactly.  (1) If the per-frame event-tick count returned by
`Status.IncrementEventCount` is 0 for `n` consecutive frames, the
`EventParser` state is unchanged — it does not advance past its current
directive.  (2) From the boundary of an idle directive of declared duration
`d`, delivering `k` ticks with `1 ≤ k ≤ d` leaves the parser inside that
directive with `d - k` yields pending and the following directives and the
executed-action log untouched; in particular at `k = d` the parser sits
exactly at the next directive, having skipped nothing. -/
theorem event_timeline_pacing {α : Type} (n : ℕ) (st : Status)
    (ps : PState α) (d k t : ℕ) (r : List (GDirective α)) (log : List α)
    (hz : ∀ i < n, ((statusAfterFrames i st).IncrementEventCount).2 = 0)
    (hk1 : 1 ≤ k) (hkd : k ≤ d) :
    (framesEventDelivery n st ps).2 = ps
    ∧ EventParser.deliver k ⟨0, GDirective.idle d :: r, log, t⟩
        = ⟨d - k, r, log, t + k⟩ := by
  constructor
  · exact frames_zero_no_advance_aux n st ps hz
  · have h1 : EventParser.Process ⟨0, GDirective.idle d :: r, log, t⟩
        = ⟨d - 1, r, log, t + 1⟩ := by
      have hd : ¬(d = 0) := by omega
      unfold EventParser.Process EventParser.advance
      simp [hd]
    cases k with
    | zero => omega
    | succ k' =>
      unfold EventParser.deliver
      rw [h1, deliver_pending_aux k' _ (by simp; omega)]
      simp only [PState.mk.injEq]
      refine ⟨by omega, trivial, trivial, by omega⟩

/-- Witness for C7 at two concrete zero-count frames and a concrete idle
directive of duration 3 given 2 ticks. -/
theorem event_timeline_pacing_witness :
    (framesEventDelivery 2 { event_count := 0, event_speed := 1000 }
      (⟨0, [], [], 0⟩ : PState ℕ)).2 = (⟨0, [], [], 0⟩ : PState ℕ)
    ∧ EventParser.deliver 2
        (⟨0, GDirective.idle 3 :: [], [], 0⟩ : PState ℕ)
      = ⟨3 - 2, [], [], 0 + 2⟩ :=
  event_timeline_pacing 2 { event_count := 0, event_speed := 1000 }
    ⟨0, [], [], 0⟩ 3 2 0 [] []
    (by
      intro i hi
      interval_cases i <;>
        simp [statusAfterFrames, Status.IncrementEventCount, ScreenIntQ,
          pyIntQ, FIXED_MUL] <;>
        norm_num)
    (by decide) (by decide)

/-! ## C9 -/

/-- After `n` ticks the straight enemy's internal counter equals `n`
(shared helper). -/
theorem straight_run_cnt_aux (n : ℕ) : ((StraightEnemy.run n).1).cnt = n := by
  induction n with
  | zero => rfl
  | succ m ih =>
    simp [StraightEnemy.run, StraightEnemy.MoveStep, ih]

/-- C9: a `StraightEnemy` spawned at `(Fixed(640), Fixed(120))` (and, as
the claim assumes, staying alive with its bullet appends succeeding) has
fired exactly one bullet after 50 process ticks and exactly two after 100;
it fires at no other tick (`cnt == 50 or cnt == 100` is the only firing
condition); and each fired bullet is exactly
`Bullet.FromAngle(x, y, Search(player), 5)` — velocity components computed
from the angle toward the player's position `pp t` at the firing tick `t`,
with speed magnitude 5. -/
theorem straight_enemy_fire_schedule (pp : ℕ → ℤ × ℤ) (n : ℕ) :
    (StraightEnemy.run 50).2 = [(50, 5481935, 2785280)]
    ∧ (StraightEnemy.run 100).2
      = [(50, 5481935, 2785280), (100, 1910610, 3604480)]
    ∧ ((StraightEnemy.MoveStep (StraightEnemy.run n).1).2 = true
        ↔ (n + 1 = 50 ∨ n + 1 = 100))
    ∧ StraightEnemy.firedBullets pp 100
      = [Bullet.FromAngle 5481935 2785280
          (Actor.Search ((5481935 : ℤ) : ℚ) ((2785280 : ℤ) : ℚ)
            (((pp 50).1 : ℤ) : ℚ) (((pp 50).2 : ℤ) : ℚ)) 5,
         Bullet.FromAngle 1910610 3604480
          (Actor.Search ((1910610 : ℤ) : ℚ) ((3604480 : ℤ) : ℚ)
            (((pp 100).1 : ℤ) : ℚ) (((pp 100).2 : ℤ) : ℚ)) 5] := by
  have h100 : (StraightEnemy.run 100).2
      = [(50, 5481935, 2785280), (100, 1910610, 3604480)] := by decide
  refine ⟨by decide, h100, ?_, ?_⟩
  · simp [StraightEnemy.MoveStep, straight_run_cnt_aux n]
  · unfold StraightEnemy.firedBullets
    rw [h100]
    simp

end GssModel
